import Mathlib

set_option maxRecDepth 8000

/-!
Shallow embedding of the document indexing / retrieval-augmented chat core of
`src/api/app.py` (FastAPI application).

Modelling conventions:
* The module-level Python dicts (`indexing_status`, `vector_databases`,
  `chat_sessions`, `memory_stored_files`), the uploads directory and the
  chat-history directory are gathered in one explicit state record
  `AppState`, threaded through every operation.
* Python dicts are modelled as association lists with overwrite insertion
  (`aset`) and first-match lookup (`aget`).
* File bytes are modelled as `List Nat`; timestamps (`datetime.now()`) and
  fresh uuids (`uuid.uuid4()`) are passed in as explicit parameters.
* The external collaborators (OpenAI embedding / generation services, the
  `aimakerspace` vector search) are passed in as explicit parameters:
  `search` stands for `VectorDatabase.search_by_text`, `gen` for the outcome
  of the streaming completion call.
* Each endpoint returns the new state paired with `Except HErr result`,
  mirroring the fact that a raised `HTTPException` aborts the remaining
  statements of the handler while keeping every mutation already performed.
-/

deriving instance DecidableEq for Except

namespace RagApp

/-- One entry of the module-level `indexing_status` dict of `app.py`:
a `status` string and a human-readable `message` (lines 237-238, 334-337,
404-407, 433-436, 447-450, 686-689, 755-758, 808-811, 819-822). -/
structure StatusInfo where
  status : String
  message : String
  deriving DecidableEq, Repr

/-- One message of a chat session: the dicts appended at lines 565-569,
594-598 and 606-610 of `app.py` (`role`, `content`, `timestamp`). -/
structure Message where
  role : String
  content : String
  timestamp : String
  deriving DecidableEq, Repr

/-- The `ChatSession` Pydantic model of `app.py` lines 209-213. -/
structure ChatSession where
  session_id : String
  created_at : String
  file_ids : List String
  messages : List Message
  deriving DecidableEq, Repr

/-- One entry of the `vector_databases` dict (lines 414-417, 802-805 of
`app.py`): the stored chunk texts.  The paired embedding vectors live inside
the external `aimakerspace.VectorDatabase` and are only consulted through the
`search` parameter below, so they are not recorded here. -/
structure VDBEntry where
  chunks : List String
  deriving DecidableEq, Repr

/-- The `FileChatRequest` Pydantic model of `app.py` lines 203-207. -/
structure FileChatRequest where
  user_message : String
  file_ids : List String
  session_id : Option String
  model : String
  deriving DecidableEq, Repr

/-- The `PreIndexedFileRequest` Pydantic model of `app.py` lines 231-235.
Embedding vectors are opaque numeric lists; only their count is ever
inspected by the handler, so their entries are modelled as integers. -/
structure PreIndexedFileRequest where
  file_id : String
  filename : String
  chunks : List String
  embeddings : List (List Int)
  deriving DecidableEq, Repr

/-- The `FileUploadResponse` Pydantic model of `app.py` lines 215-221
(`file_content` holds the raw bytes handed back for browser storage; the
base64 encoding of line 669 is kept abstract). -/
structure FileUploadResponse where
  filename : String
  file_id : String
  message : String
  indexing_status : String
  use_browser_storage : Bool
  file_content : Option (List Nat)
  deriving DecidableEq, Repr

/-- The `FileIndexingStatus` Pydantic model of `app.py` lines 223-226. -/
structure FileIndexingStatus where
  file_id : String
  status : String
  message : String
  deriving DecidableEq, Repr

/-- A raised `HTTPException`: status code and detail string. -/
structure HErr where
  status_code : Nat
  detail : String
  deriving DecidableEq, Repr

/-- Result handed back by the chat endpoint on the non-raising path: the
grounding context assembled at line 539 of `app.py` and the full text put on
the stream (the accumulated completion, or the error placeholder). -/
structure ChatOut where
  context : String
  streamed : String
  deriving DecidableEq, Repr

/-- The whole mutable state of the process, plus the on-disk directories.
`readonly` is the startup-time `IS_READONLY` probe (line 50).
`session_files` models the `chat_history/` directory (one JSON file per
session id), `uploads` the `uploads/` directory (file id to filename and
bytes).  `queued`/`running` track the background indexing tasks spawned by
`asyncio.create_task` at line 692: an id is `queued` from task creation until
`index_file` starts running, and `running` until it reaches a terminal
status. -/
structure AppState where
  readonly : Bool
  indexing_status : List (String × StatusInfo)
  vector_databases : List (String × VDBEntry)
  chat_sessions : List (String × ChatSession)
  session_files : List (String × ChatSession)
  uploads : List (String × (String × List Nat))
  memory_stored_files : List (String × List Nat)
  queued : List String
  running : List String
  deriving DecidableEq, Repr

/-- The process state right after startup: every table empty. -/
def mkInit (ro : Bool) : AppState :=
  { readonly := ro
    indexing_status := []
    vector_databases := []
    chat_sessions := []
    session_files := []
    uploads := []
    memory_stored_files := []
    queued := []
    running := [] }

/-- Dict lookup: first binding of the key, if any. -/
def aget {α : Type} : List (String × α) → String → Option α
  | [], _ => none
  | p :: rest, k => if p.1 = k then some p.2 else aget rest k

/-- Remove every binding of a key. -/
def aerase {α : Type} : List (String × α) → String → List (String × α)
  | [], _ => []
  | p :: rest, k => if p.1 = k then aerase rest k else p :: aerase rest k

/-- Dict overwrite insertion (`d[k] = v`). -/
def aset {α : Type} (d : List (String × α)) (k : String) (v : α) : List (String × α) :=
  (k, v) :: aerase d k

/-- Model of Python `str.join(sep, parts)`. -/
def joinSep (sep : String) : List String → String
  | [] => ""
  | [x] => x
  | x :: xs => x ++ sep ++ joinSep sep xs

/-- Split a character list at every occurrence of `c` (model of Python
`str.split` with a one-character separator). -/
def splitOnCharAux (c : Char) : List Char → List Char → List (List Char)
  | [], acc => [acc.reverse]
  | x :: xs, acc =>
      if x = c then acc.reverse :: splitOnCharAux c xs []
      else splitOnCharAux c xs (x :: acc)

/-- Split a character list at every occurrence of `c`. -/
def splitOnChar (c : Char) (l : List Char) : List (List Char) :=
  splitOnCharAux c l []

/-- ASCII model of Python `str.lower()`. -/
def lowerStr (s : String) : String := String.mk (s.data.map Char.toLower)

/-- ASCII model of Python `str.upper()`. -/
def upperStr (s : String) : String := String.mk (s.data.map Char.toUpper)

/-- `get_file_type` of `app.py` lines 64-75: dispatch on the lowercased text
after the last dot (Python `split('.')[-1]`). -/
def get_file_type (filename : String) : String :=
  let ext := String.mk ((splitOnChar '.' (lowerStr filename).data).getLastD [])
  if ext = "pdf" then "pdf"
  else if ext = "md" ∨ ext = "txt" then "text"
  else if ext = "csv" then "csv"
  else if ext = "json" then "json"
  else "unknown"

/-- `is_supported_file` of `app.py` lines 77-80. -/
def is_supported_file (filename : String) : Bool :=
  let ext := "." ++ String.mk ((splitOnChar '.' (lowerStr filename).data).getLastD [])
  ([".pdf", ".md", ".txt", ".csv", ".json"] : List String).contains ext

/-- The default status info used by `indexing_status.get(file_id, ...)` at
lines 471 and 755 of `app.py`. -/
def defaultStatusUnknown : StatusInfo := ⟨"unknown", "File not found"⟩

/-- The recorded status of a document id (`none` when no record exists). -/
def statusOf (st : AppState) (id : String) : Option String :=
  (aget st.indexing_status id).map StatusInfo.status

/-- `extract_csv_content` of `app.py` lines 96-146, applied to the rows
already produced by `csv.reader`: the first row becomes one
`"Headers: a | b | c"` block, every later row (1-indexed by its enumerate
position) one `"Row N: v1 | v2 | ..."` block; an empty row list raises
`ValueError("CSV file is empty")`. -/
def extract_csv_rows (rows : List (List String)) : Except String (List String) :=
  if rows = [] then .error "CSV file is empty"
  else .ok (rows.enum.map (fun p =>
    if p.1 = 0 then "Headers: " ++ joinSep " | " p.2
    else "Row " ++ toString p.1 ++ ": " ++ joinSep " | " p.2))

/-- Model of the Python `csv.reader` row parsing used at lines 107-108 of
`app.py`, restricted to unquoted CSV text without interior blank lines: each
newline-separated line yields one row of comma-separated cells, a trailing
newline yields no extra row, and empty input yields no rows. -/
def csvParse (text : String) : List (List String) :=
  let ls := (splitOnChar '\n' text.data).map String.mk
  let ls2 := if ls.getLast? = some "" then ls.dropLast else ls
  ls2.map (fun line => (splitOnChar ',' line.data).map String.mk)

/-- `extract_csv_content` of `app.py` lines 96-146 on decoded text (the
UTF-8 / Latin-1 byte decoding is outside this embedding, which works on
already-decoded text). -/
def extract_csv_content (text : String) : Except String (List String) :=
  extract_csv_rows (csvParse text)

/-- Modelled from the spec: the `CharacterTextSplitter` used by `index_file`
(`app.py` lines 364, 375, 386, 397) comes from the `aimakerspace` library,
which is not under `src/`.  Spec section 4.1: "Splits each text block into
windows of `chunkSize` characters, each window starting `chunkSize − overlap`
characters after the previous window's start"; a window is taken at every
such start that lies inside the text, and empty input yields an empty
sequence. -/
def splitText (chunkSize overlap : Nat) (text : List Char) : List (List Char) :=
  let step := chunkSize - overlap
  (List.range ((text.length + step - 1) / step)).map
    (fun i => (text.drop (i * step)).take chunkSize)

/-- `save_chat_session` of `app.py` lines 249-261: in read-only mode the
session is stored in the in-memory dict; otherwise it is written to
`chat_history/{session_id}.json` (the JSON round trip is identity at this
level of abstraction, and the write is assumed to succeed — on failure the
code only prints a warning). -/
def save_chat_session (st : AppState) (s : ChatSession) : AppState :=
  if st.readonly then
    { st with chat_sessions := aset st.chat_sessions s.session_id s }
  else
    { st with session_files := aset st.session_files s.session_id s }

/-- `load_chat_session` of `app.py` lines 263-276. -/
def load_chat_session (st : AppState) (sid : String) : Option ChatSession :=
  if st.readonly then aget st.chat_sessions sid
  else aget st.session_files sid

/-- `get_all_chat_sessions` of `app.py` lines 278-291: the in-memory dict
values in read-only mode, otherwise one session per file in the
`chat_history/` directory. -/
def get_all_chat_sessions (st : AppState) : List ChatSession :=
  if st.readonly then st.chat_sessions.map Prod.snd
  else st.session_files.map Prod.snd

/-- `upload_file` of `app.py` lines 646-705: reject unsupported extensions,
then contents over 10MB; in read-only mode return the bytes for browser
storage without touching any server-side table; otherwise store the file,
record a `pending` status and queue the background indexing task.  `fresh`
is the `uuid.uuid4()` drawn at line 663. -/
def upload_file (st : AppState) (filename : String) (content : List Nat)
    (fresh : String) : AppState × Except HErr FileUploadResponse :=
  if is_supported_file filename = false then
    (st, .error ⟨400, "Unsupported file type. Supported types: .pdf, .md, .txt, .csv, .json"⟩)
  else if content.length > 10 * 1024 * 1024 then
    (st, .error ⟨400, "File size too large. Maximum size is 10MB"⟩)
  else if st.readonly then
    (st, .ok ⟨filename, fresh,
      upperStr (get_file_type filename) ++ " uploaded successfully (stored in browser)",
      "pending", true, some content⟩)
  else
    ({ st with
        uploads := aset st.uploads fresh (filename, content)
        indexing_status := aset st.indexing_status fresh
          ⟨"pending", "File uploaded, indexing will start shortly..."⟩
        queued := fresh :: st.queued },
     .ok ⟨filename, fresh,
      upperStr (get_file_type filename) ++ " uploaded successfully",
      "pending", false, none⟩)

/-- First half of `index_file` (`app.py` lines 330-337): the background task
starts and writes the `indexing` status.  The move from `queued` to
`running` is the task-registry bookkeeping of the scheduler model. -/
def index_begin (st : AppState) (id : String) : AppState :=
  { st with
      indexing_status := aset st.indexing_status id
        ⟨"indexing", "Processing file and creating embeddings..."⟩
      queued := st.queued.erase id
      running := id :: st.running }

/-- Second half of `index_file` (`app.py` lines 339-451), with the outcome
of the external extraction/chunking/embedding work passed in: on failure the
status becomes `failed` with the cause (lines 445-450); on success the
vector database entry is stored (line 414) and then — only after the index
metadata file write of lines 427-430, modelled by `metaOk` and skipped in
read-only mode — the status becomes `completed` (line 433); if that write
raises, the `except` clause still records `failed`, with the vector
database entry already in place. -/
def index_finish (st : AppState) (id : String)
    (outcome : Except String (List String)) (metaOk : Bool) : AppState :=
  match outcome with
  | .error e =>
      { st with
          indexing_status := aset st.indexing_status id
            ⟨"failed", "Indexing failed: " ++ e⟩
          running := st.running.erase id }
  | .ok chunks =>
      if st.readonly ∨ metaOk = true then
        { st with
            vector_databases := aset st.vector_databases id ⟨chunks⟩
            indexing_status := aset st.indexing_status id
              ⟨"completed", "Successfully indexed " ++ toString chunks.length ++ " text chunks"⟩
            running := st.running.erase id }
      else
        { st with
            vector_databases := aset st.vector_databases id ⟨chunks⟩
            indexing_status := aset st.indexing_status id
              ⟨"failed", "Indexing failed: metadata write error"⟩
            running := st.running.erase id }

/-- The `missing_files` list built by the loop at `app.py` lines 466-475:
ids without a vector database entry whose recorded status is not `failed`,
rendered as `"{id} (status: {status})"`. -/
def chatMissingList (st : AppState) (ids : List String) : List String :=
  ids.filterMap (fun id =>
    if (aget st.vector_databases id).isSome then none
    else
      let si := (aget st.indexing_status id).getD defaultStatusUnknown
      if si.status = "failed" then none
      else some (id ++ " (status: " ++ si.status ++ ")"))

/-- The `failed_files` list built by the loop at `app.py` lines 466-475:
ids without a vector database entry whose recorded status is `failed`,
rendered as `"{id} (failed: {message})"`. -/
def chatFailedList (st : AppState) (ids : List String) : List String :=
  ids.filterMap (fun id =>
    if (aget st.vector_databases id).isSome then none
    else
      let si := (aget st.indexing_status id).getD defaultStatusUnknown
      if si.status = "failed" then some (id ++ " (failed: " ++ si.message ++ ")")
      else none)

/-- The detail string of the readiness `HTTPException` at `app.py` lines
477-487, naming each offending id together with its recorded status. -/
def chatReadinessDetail (st : AppState) (ids : List String) : String :=
  let missing := chatMissingList st ids
  let failed := chatFailedList st ids
  "Files not found or not indexed: " ++
    joinSep "; "
      ((if missing ≠ [] then ["Missing/not indexed: " ++ joinSep ", " missing] else []) ++
       (if failed ≠ [] then ["Failed indexing: " ++ joinSep ", " failed] else []))

/-- A fresh session as created at `app.py` lines 492-497. -/
def newSession (sid now : String) (ids : List String) : ChatSession :=
  { session_id := sid, created_at := now, file_ids := ids, messages := [] }

/-- `chat_with_file` of `app.py` lines 454-621.  `now` stands for the
`datetime.now().isoformat()` calls, `fresh` for the `uuid.uuid4()` session
id fallback of line 490, `search` for `VectorDatabase.search_by_text` with
`k=2` (external embedding service), `apiKey` for the `OPENAI_API_KEY`
environment probe, and `gen` for the outcome of consuming the completion
stream (full accumulated text, or the exception message caught at line
603).  The response generator of lines 572-612 is modelled as running to
completion, so both generation outcomes end in a non-raising result. -/
def chat_with_file (st : AppState) (req : FileChatRequest) (now fresh : String)
    (search : String → VDBEntry → List String) (apiKey : Option String)
    (gen : Except String String) : AppState × Except HErr ChatOut :=
  if req.file_ids = [] then
    (st, .error ⟨400, "At least one file ID is required"⟩)
  else if chatMissingList st req.file_ids ≠ [] ∨ chatFailedList st req.file_ids ≠ [] then
    (st, .error ⟨400, chatReadinessDetail st req.file_ids⟩)
  else
    let sid := req.session_id.getD fresh
    let st1 :=
      if aget st.chat_sessions sid = none then
        { st with chat_sessions := aset st.chat_sessions sid (newSession sid now req.file_ids) }
      else st
    let session := (aget st1.chat_sessions sid).getD (newSession sid now req.file_ids)
    let chunks :=
      (req.file_ids.map (fun id =>
        search req.user_message ((aget st1.vector_databases id).getD ⟨[]⟩))).flatten
    if chunks = [] then
      (st1, .error ⟨400, "No relevant content found in the selected files"⟩)
    else
      let context := joinSep "\n\n" chunks
      match apiKey with
      | none => (st1, .error ⟨500, "OpenAI API key not configured"⟩)
      | some _ =>
        let s1 := { session with messages := session.messages ++ [⟨"user", req.user_message, now⟩] }
        let st2 := { st1 with chat_sessions := aset st1.chat_sessions sid s1 }
        match gen with
        | .ok c =>
          let s2 := { s1 with messages := s1.messages ++ [⟨"assistant", c, now⟩] }
          let st3 := { st2 with chat_sessions := aset st2.chat_sessions sid s2 }
          (save_chat_session st3 s2, .ok ⟨context, c⟩)
        | .error e =>
          let s2 := { s1 with messages := s1.messages ++ [⟨"assistant", "Error: " ++ e, now⟩] }
          let st3 := { st2 with chat_sessions := aset st2.chat_sessions sid s2 }
          (save_chat_session st3 s2, .ok ⟨context, "Error: " ++ e⟩)

/-- `get_file_indexing_status` of `app.py` lines 752-767: non-blocking
lookup with the `unknown` default. -/
def get_file_indexing_status (st : AppState) (id : String) : FileIndexingStatus :=
  let si := (aget st.indexing_status id).getD defaultStatusUnknown
  ⟨id, si.status, si.message⟩

/-- `accept_pre_indexed_file` of `app.py` lines 774-823: validation
failures are caught by the handler's `except` clause, which records a
`failed` status for the caller-supplied id; on success the vector database
entry is stored and the status set to `completed`, whatever status the id
had before. -/
def accept_pre_indexed_file (st : AppState) (req : PreIndexedFileRequest) :
    AppState × Except HErr String :=
  if req.chunks = [] ∨ req.embeddings = [] then
    ({ st with
        indexing_status := aset st.indexing_status req.file_id
          ⟨"failed", "Indexing failed: No chunks or embeddings provided"⟩ },
     .error ⟨500, "Failed to index file: No chunks or embeddings provided"⟩)
  else if req.chunks.length ≠ req.embeddings.length then
    let msg := "Mismatch: " ++ toString req.chunks.length ++ " chunks vs " ++
      toString req.embeddings.length ++ " embeddings"
    ({ st with
        indexing_status := aset st.indexing_status req.file_id
          ⟨"failed", "Indexing failed: " ++ msg⟩ },
     .error ⟨500, "Failed to index file: " ++ msg⟩)
  else
    ({ st with
        vector_databases := aset st.vector_databases req.file_id ⟨req.chunks⟩
        indexing_status := aset st.indexing_status req.file_id
          ⟨"completed", "Successfully indexed " ++ toString req.chunks.length ++
            " text chunks from browser storage"⟩ },
     .ok "File indexed successfully")

/-- The session pruning loop of `delete_file` (`app.py` lines 860-867):
Python `list.remove` drops the first occurrence of the id, and a session
whose `file_ids` list becomes empty is deleted from the dict. -/
def pruneSessions : List (String × ChatSession) → String → List (String × ChatSession)
  | [], _ => []
  | p :: rest, id =>
      if id ∈ p.2.file_ids then
        (if p.2.file_ids.erase id = [] then pruneSessions rest id
         else (p.1, { p.2 with file_ids := p.2.file_ids.erase id }) :: pruneSessions rest id)
      else p :: pruneSessions rest id

/-- `delete_file` of `app.py` lines 826-876.  The final `HTTPException(404)`
of line 872 is re-caught by the broad `except` clause, whose `logger`
reference is undefined, so the surfaced failure is an internal error; the
branch is recorded here abstractly as an error result.  All mutations
performed before that point persist. -/
def delete_file (st : AppState) (id : String) : AppState × Except HErr String :=
  let d1 := (aget st.vector_databases id).isSome
  let d2 := (aget st.indexing_status id).isSome
  let d3 := (aget st.memory_stored_files id).isSome
  let d4 := !st.readonly && (aget st.uploads id).isSome
  let st' := { st with
    vector_databases := aerase st.vector_databases id
    indexing_status := aerase st.indexing_status id
    memory_stored_files := aerase st.memory_stored_files id
    uploads := if st.readonly then st.uploads else aerase st.uploads id
    chat_sessions := pruneSessions st.chat_sessions id }
  if d1 || d2 || d3 || d4 then
    (st', .ok ("File " ++ id ++ " deleted successfully"))
  else
    (st', .error ⟨404, "File not found"⟩)

/-- The ordering of the status state machine of spec section 3:
no record < `pending` < `indexing` < terminal (`completed` / `failed`). -/
def statusRank : Option String → Nat
  | none => 0
  | some s =>
      if s = "pending" then 1
      else if s = "indexing" then 2
      else if s = "completed" ∨ s = "failed" then 3
      else 0

/-- A terminal recorded status. -/
def IsTerminal (o : Option String) : Prop :=
  o = some "completed" ∨ o = some "failed"

/-- The status-relevant operations of the upload/indexing pipeline itself:
an accepted or rejected upload with a fresh uuid, the start of a queued
background indexing task, and its completion.  `hfresh`/`hq`/`hr` encode
that `uuid.uuid4()` never collides with a live id. -/
inductive PipelineStep : AppState → AppState → Prop where
  | upload (st : AppState) (fn : String) (content : List Nat) (fresh : String)
      (hfresh : aget st.indexing_status fresh = none)
      (hq : fresh ∉ st.queued) (hr : fresh ∉ st.running) :
      PipelineStep st (upload_file st fn content fresh).1
  | start (st : AppState) (id : String) (h : id ∈ st.queued) :
      PipelineStep st (index_begin st id)
  | finish (st : AppState) (id : String) (outcome : Except String (List String))
      (metaOk : Bool) (h : id ∈ st.running) :
      PipelineStep st (index_finish st id outcome metaOk)

/-- All state-changing operations of the application: the pipeline plus the
client-driven endpoints (`/api/pre-indexed-file`, file deletion, chat). -/
inductive FullStep : AppState → AppState → Prop where
  | pipe {st st' : AppState} (h : PipelineStep st st') : FullStep st st'
  | preIndexed (st : AppState) (req : PreIndexedFileRequest) :
      FullStep st (accept_pre_indexed_file st req).1
  | del (st : AppState) (id : String) :
      FullStep st (delete_file st id).1
  | chatStep (st : AppState) (req : FileChatRequest) (now fresh : String)
      (search : String → VDBEntry → List String) (apiKey : Option String)
      (gen : Except String String) :
      FullStep st (chat_with_file st req now fresh search apiKey gen).1

/-- Scheduler invariant tying the task registry to the status table: queued
tasks have status `pending`, running tasks status `indexing`, and the
registries hold each id at most once. -/
def Inv (st : AppState) : Prop :=
  (∀ id ∈ st.queued, statusOf st id = some "pending") ∧
  (∀ id ∈ st.running, statusOf st id = some "indexing") ∧
  st.queued.Nodup ∧ st.running.Nodup

/-- States for claim C1's counterexample: a pre-indexed upload for id `d`
whose validation fails, recording the terminal status `failed`... -/
def c1St1 : AppState :=
  (accept_pre_indexed_file (mkInit true) ⟨"d", "f.txt", [], []⟩).1

/-- ...followed by a second pre-indexed upload for the same id, which
overwrites the terminal status with `completed`. -/
def c1St2 : AppState :=
  (accept_pre_indexed_file c1St1 ⟨"d", "f.txt", ["c"], [[1]]⟩).1

/-- States for claim C2's counterexample: a successful pre-indexed upload
for id `d` (vector database entry stored, status `completed`)... -/
def c2St1 : AppState :=
  (accept_pre_indexed_file (mkInit true) ⟨"d", "f.txt", ["hello"], [[1]]⟩).1

/-- ...followed by a failing re-submission for the same id: the status
becomes `failed` while the stale vector database entry stays in place. -/
def c2St2 : AppState :=
  (accept_pre_indexed_file c2St1 ⟨"d", "f.txt", [], []⟩).1

/-- States for claim C4's counterexample, in the durable (non-read-only)
backend: a successful pre-indexed upload for id `d`... -/
def c4St1 : AppState :=
  (accept_pre_indexed_file (mkInit false) ⟨"d", "f.txt", ["c1"], [[1]]⟩).1

/-- ...then a chat turn grounded only in `d`, which creates session `s1`
and persists it to the chat-history directory... -/
def c4St2 : AppState :=
  (chat_with_file c4St1 ⟨"q", ["d"], none, "m"⟩ "t0" "s1"
    (fun _ db => db.chunks.take 2) (some "k") (.ok "ans")).1

/-- ...then deletion of document `d`. -/
def c4St3 : AppState := (delete_file c4St2 "d").1

/-- A small read-only state with one stored chat session grounded in
document `d`, used to instantiate theorems about deletion. -/
def c4WSt : AppState :=
  { mkInit true with chat_sessions := [("s1", ⟨"s1", "t0", ["d"], []⟩)] }

/-- The full text put on the stream for a generation outcome: the
accumulated completion on success, or the error placeholder built at line
605 of `app.py`. -/
def genText : Except String String → String
  | .ok c => c
  | .error e => "Error: " ++ e

/-- State used to instantiate the chat-transcript theorem: a successful
pre-indexed upload of document `e`. -/
def c3WSt : AppState :=
  (accept_pre_indexed_file (mkInit true) ⟨"e", "g.txt", ["w1"], [[1]]⟩).1

/-- States used to instantiate the existing-session frame theorem: a
successful pre-indexed upload of document `f`... -/
def c10St1 : AppState :=
  (accept_pre_indexed_file (mkInit true) ⟨"f", "h.txt", ["x1"], [[2]]⟩).1

/-- ...followed by a first chat turn creating session `sX`. -/
def c10St2 : AppState :=
  (chat_with_file c10St1 ⟨"q1", ["f"], none, "m"⟩ "t0" "sX"
    (fun _ db => db.chunks.take 2) (some "k") (.ok "a1")).1

/-! ### Association-list lemmas -/

theorem aget_aerase_self {α : Type} (d : List (String × α)) (k : String) :
    aget (aerase d k) k = none := by
  induction d with
  | nil => rfl
  | cons p rest ih =>
    simp only [aerase]
    by_cases hp : p.1 = k
    · simpa [hp] using ih
    · simp [aget, hp, ih]

theorem aget_aerase_ne {α : Type} (d : List (String × α)) (k k' : String)
    (h : k' ≠ k) : aget (aerase d k) k' = aget d k' := by
  induction d with
  | nil => rfl
  | cons p rest ih =>
    simp only [aerase]
    by_cases hp : p.1 = k
    · have hkk : k ≠ k' := fun hh => h hh.symm
      simp [aget, hp, hkk, ih]
    · simp [aget, hp, ih]

theorem aget_aset_self {α : Type} (d : List (String × α)) (k : String) (v : α) :
    aget (aset d k v) k = some v := by
  simp [aset, aget]

theorem aget_aset_ne {α : Type} (d : List (String × α)) (k k' : String) (v : α)
    (h : k' ≠ k) : aget (aset d k v) k' = aget d k' := by
  have hk : k ≠ k' := fun hh => h hh.symm
  simp [aset, aget, hk, aget_aerase_ne d k k' h]

theorem mem_of_aget {α : Type} {d : List (String × α)} {k : String} {v : α}
    (h : aget d k = some v) : (k, v) ∈ d := by
  induction d with
  | nil => simp [aget] at h
  | cons p rest ih =>
    cases p with
    | mk k1 v1 =>
      by_cases hp : k1 = k
      · subst hp
        simp only [aget, if_true, eq_self_iff_true, Option.some.injEq] at h
        subst h
        exact List.mem_cons_self _ _
      · simp only [aget, if_neg hp] at h
        exact List.mem_cons_of_mem _ (ih h)

theorem aget_eq_none_of_not_mem_keys {α : Type} (d : List (String × α)) (k : String)
    (h : k ∉ d.map Prod.fst) : aget d k = none := by
  induction d with
  | nil => rfl
  | cons p rest ih =>
    simp only [List.map_cons, List.mem_cons, not_or] at h
    have hp : p.1 ≠ k := fun hh => h.1 hh.symm
    simp [aget, hp, ih h.2]

/-! ### Readiness-check lemmas -/

theorem chatLists_nil_iff (st : AppState) (ids : List String) :
    (chatMissingList st ids = [] ∧ chatFailedList st ids = []) ↔
      ∀ id ∈ ids, (aget st.vector_databases id).isSome = true := by
  simp only [chatMissingList, chatFailedList, List.filterMap_eq_nil_iff]
  constructor
  · rintro ⟨h1, h2⟩ id hid
    by_contra hns
    have e1 := h1 id hid
    have e2 := h2 id hid
    rw [if_neg hns] at e1 e2
    by_cases hf : ((aget st.indexing_status id).getD defaultStatusUnknown).status = "failed"
    · rw [if_pos hf] at e2; exact Option.noConfusion e2
    · rw [if_neg hf] at e1; exact Option.noConfusion e1
  · intro h
    constructor <;> intro id hid <;> rw [if_pos (h id hid)]

/-! ### CSV block helper -/

theorem enumFrom_row_blocks (rs : List (List String)) (n : Nat) (hn : 0 < n) :
    (List.enumFrom n rs).map (fun p =>
        if p.1 = 0 then "Headers: " ++ joinSep " | " p.2
        else "Row " ++ toString p.1 ++ ": " ++ joinSep " | " p.2) =
      rs.mapIdx (fun i row => "Row " ++ toString (i + n) ++ ": " ++ joinSep " | " row) := by
  induction rs generalizing n with
  | nil => rfl
  | cons r rest ih =>
    rw [List.enumFrom_cons, List.map_cons, List.mapIdx_cons]
    have h0 : ¬ n = 0 := Nat.pos_iff_ne_zero.mp hn
    congr 1
    · simp [h0]
    · rw [ih (n + 1) (Nat.succ_pos n)]
      congr 1
      funext i row
      have : i + (n + 1) = i + 1 + n := by omega
      rw [this]

/-! ### Session-pruning lemmas -/

theorem aget_prune_none (d : List (String × ChatSession)) (id sid : String)
    (h : aget d sid = none) : aget (pruneSessions d id) sid = none := by
  induction d with
  | nil => rfl
  | cons p rest ih =>
    have hp : p.1 ≠ sid := by
      intro hh
      simp [aget, hh] at h
    have hrest : aget rest sid = none := by
      simpa [aget, hp] using h
    by_cases hmem : id ∈ p.2.file_ids
    · by_cases hemp : p.2.file_ids.erase id = []
      · simpa [pruneSessions, hmem, hemp] using ih hrest
      · simpa [pruneSessions, hmem, hemp, aget, hp] using ih hrest
    · simpa [pruneSessions, hmem, aget, hp] using ih hrest

theorem mem_prune {d : List (String × ChatSession)} {id : String}
    {q : String × ChatSession} (h : q ∈ pruneSessions d id) :
    ∃ p ∈ d,
      (id ∈ p.2.file_ids ∧ p.2.file_ids.erase id ≠ [] ∧
        q = (p.1, { p.2 with file_ids := p.2.file_ids.erase id })) ∨
      (id ∉ p.2.file_ids ∧ q = p) := by
  induction d with
  | nil => simp [pruneSessions] at h
  | cons p rest ih =>
    by_cases hmem : id ∈ p.2.file_ids
    · by_cases hemp : p.2.file_ids.erase id = []
      · simp only [pruneSessions, if_pos hmem, if_pos hemp] at h
        obtain ⟨p', hp', hc⟩ := ih h
        exact ⟨p', List.mem_cons_of_mem _ hp', hc⟩
      · simp only [pruneSessions, if_pos hmem, if_neg hemp, List.mem_cons] at h
        rcases h with hq | hq
        · exact ⟨p, List.mem_cons_self _ _, Or.inl ⟨hmem, hemp, hq⟩⟩
        · obtain ⟨p', hp', hc⟩ := ih hq
          exact ⟨p', List.mem_cons_of_mem _ hp', hc⟩
    · simp only [pruneSessions, if_neg hmem, List.mem_cons] at h
      rcases h with hq | hq
      · exact ⟨p, List.mem_cons_self _ _, Or.inr ⟨hmem, hq⟩⟩
      · obtain ⟨p', hp', hc⟩ := ih hq
        exact ⟨p', List.mem_cons_of_mem _ hp', hc⟩

theorem aget_prune (d : List (String × ChatSession)) (id sid : String) (s : ChatSession)
    (hk : (d.map Prod.fst).Nodup) (h : aget d sid = some s) :
    aget (pruneSessions d id) sid =
      (if id ∈ s.file_ids ∧ s.file_ids.erase id = [] then none
       else some { s with file_ids := s.file_ids.erase id }) := by
  induction d with
  | nil => simp [aget] at h
  | cons p rest ih =>
    simp only [List.map_cons, List.nodup_cons] at hk
    by_cases hp : p.1 = sid
    · have hs : p.2 = s := by simpa [aget, hp] using h
      have hrest : aget rest sid = none := by
        apply aget_eq_none_of_not_mem_keys
        rw [← hp]
        exact hk.1
      by_cases hmem : id ∈ s.file_ids
      · by_cases hemp : s.file_ids.erase id = []
        · have hnone : aget (pruneSessions rest id) sid = none :=
            aget_prune_none rest id sid hrest
          simpa [pruneSessions, hs, hmem, hemp] using hnone
        · simp [pruneSessions, hs, hmem, hemp, aget, hp]
      · have hid : s.file_ids.erase id = s.file_ids := List.erase_of_not_mem hmem
        simp [pruneSessions, hs, hmem, aget, hp, hid]
    · have h' : aget rest sid = some s := by simpa [aget, hp] using h
      have tih := ih hk.2 h'
      by_cases hmem : id ∈ p.2.file_ids
      · by_cases hemp : p.2.file_ids.erase id = []
        · simpa [pruneSessions, hmem, hemp] using tih
        · simpa [pruneSessions, hmem, hemp, aget, hp] using tih
      · simpa [pruneSessions, hmem, aget, hp] using tih

/-! ### Claim C8 -/

/-- C8: for every session, `save(session)` followed by `load(session.id)` on
the same storage backend (read-only in-memory dict, or durable file-backed
directory) returns the saved session itself — in particular a session with
identical `messages` sequence and identical `documentIds` (`file_ids`). -/
theorem session_save_load_roundtrip (st : AppState) (s : ChatSession) :
    load_chat_session (save_chat_session st s) s.session_id = some s := by
  by_cases h : st.readonly <;>
    simp [save_chat_session, load_chat_session, h, aget_aset_self]

/-! ### Claim C9 -/

/-- C9: an upload whose content exceeds 10 * 1024 * 1024 bytes is rejected
with a client error (HTTP 400) and leaves the whole state unchanged — so no
status record, no stored file, no vector store, and no allocated id for it —
while an upload at or below that size with a supported extension passes the
size check and is accepted with a `pending` response. -/
theorem upload_size_limit (st : AppState) (fn : String) (content : List Nat)
    (fresh : String) :
    (content.length > 10 * 1024 * 1024 →
      (upload_file st fn content fresh).1 = st ∧
        ∃ d, (upload_file st fn content fresh).2 = .error ⟨400, d⟩) ∧
    (content.length ≤ 10 * 1024 * 1024 → is_supported_file fn = true →
      ∃ r, (upload_file st fn content fresh).2 = .ok r ∧ r.indexing_status = "pending") := by
  constructor
  · intro hbig
    by_cases hs : is_supported_file fn
    · refine ⟨?_, ⟨"File size too large. Maximum size is 10MB", ?_⟩⟩ <;>
        simp [upload_file, hs, hbig]
    · have hs' : is_supported_file fn = false := by
        simpa using hs
      refine ⟨?_, ⟨"Unsupported file type. Supported types: .pdf, .md, .txt, .csv, .json", ?_⟩⟩ <;>
        simp [upload_file, hs']
  · intro hsz hs
    have hbig : ¬ content.length > 10 * 1024 * 1024 := Nat.not_lt.mpr hsz
    by_cases hro : st.readonly
    · refine ⟨⟨fn, fresh,
        upperStr (get_file_type fn) ++ " uploaded successfully (stored in browser)",
        "pending", true, some content⟩, ?_, rfl⟩
      simp [upload_file, hs, hbig, hro]
    · refine ⟨⟨fn, fresh, upperStr (get_file_type fn) ++ " uploaded successfully",
        "pending", false, none⟩, ?_, rfl⟩
      simp [upload_file, hs, hbig, hro]

/-- Witness for C9: a concrete 10MB + 1 upload is rejected with state
unchanged, and a concrete 1-byte text upload passes the size check. -/
theorem upload_size_limit_w :
    ((upload_file (mkInit true) "a.txt" (List.replicate (10 * 1024 * 1024 + 1) 0) "f9").1 =
        mkInit true ∧
      ∃ d, (upload_file (mkInit true) "a.txt"
        (List.replicate (10 * 1024 * 1024 + 1) 0) "f9").2 = .error ⟨400, d⟩) ∧
    ∃ r, (upload_file (mkInit true) "a.txt" [104] "f9").2 = .ok r ∧
      r.indexing_status = "pending" :=
  ⟨(upload_size_limit (mkInit true) "a.txt" (List.replicate (10 * 1024 * 1024 + 1) 0) "f9").1
      (by rw [List.length_replicate]; norm_num),
   (upload_size_limit (mkInit true) "a.txt" [104] "f9").2 (by norm_num) (by decide)⟩

/-! ### Claim C5 -/

/-- C5 counterexample: under the browser-storage (read-only) backend, an
accepted upload's response advertises `pending`, but no server-side status
record is created, so an immediate status read of the new id reports the
`unknown` pseudo-state instead of `pending`. -/
theorem readonly_upload_unknown_cex :
    (upload_file (mkInit true) "a.txt" [104] "id1").2 =
      .ok ⟨"a.txt", "id1", "TEXT uploaded successfully (stored in browser)",
        "pending", true, some [104]⟩ ∧
    get_file_indexing_status (upload_file (mkInit true) "a.txt" [104] "id1").1 "id1" =
      ⟨"id1", "unknown", "File not found"⟩ :=
  ⟨by decide, by decide⟩

/-- C5 (amended): for every accepted upload (supported type, within size
limit) under the durable (non-read-only) backend, a status record in state
`pending` exists for the new document id at upload acceptance, so an
immediate status read reports `pending`; under the read-only backend the
response still advertises `pending` but no server-side record is created
and the status read reports `unknown`. -/
theorem upload_pending_nonreadonly (st : AppState) (fn : String) (content : List Nat)
    (fresh : String) (hro : st.readonly = false) (hs : is_supported_file fn = true)
    (hsz : content.length ≤ 10 * 1024 * 1024) :
    statusOf (upload_file st fn content fresh).1 fresh = some "pending" ∧
    (get_file_indexing_status (upload_file st fn content fresh).1 fresh).status = "pending" ∧
    ∃ r, (upload_file st fn content fresh).2 = .ok r ∧ r.indexing_status = "pending" := by
  have hbig : ¬ content.length > 10 * 1024 * 1024 := Nat.not_lt.mpr hsz
  refine ⟨?_, ?_, ⟨⟨fn, fresh, upperStr (get_file_type fn) ++ " uploaded successfully",
      "pending", false, none⟩, ?_, rfl⟩⟩ <;>
    simp [upload_file, hs, hbig, hro, statusOf, get_file_indexing_status, aget_aset_self]

/-- Witness for C5 (amended) at a concrete non-read-only upload. -/
theorem upload_pending_nonreadonly_w :
    statusOf (upload_file (mkInit false) "a.txt" [104] "id1").1 "id1" = some "pending" ∧
    (get_file_indexing_status (upload_file (mkInit false) "a.txt" [104] "id1").1 "id1").status =
      "pending" ∧
    ∃ r, (upload_file (mkInit false) "a.txt" [104] "id1").2 = .ok r ∧
      r.indexing_status = "pending" :=
  upload_pending_nonreadonly (mkInit false) "a.txt" [104] "id1" rfl (by decide) (by decide)

/-! ### Claim C6 -/

/-- C6: CSV extraction turns the first parsed row into the single block
`"Headers: a | b | c"` (cells joined by `" | "`) and each subsequent row
into `"Row N: v1 | v2 | ..."` with `N` the 1-indexed data-row position
excluding the header; concretely, a CSV with header `name,age` and one row
`Ann,30` extracts to exactly the two blocks `"Headers: name | age"` and
`"Row 1: Ann | 30"`, and a CSV with zero parsed rows fails with the
extraction error. -/
theorem csv_extraction_blocks :
    (∀ rows : List (List String), extract_csv_rows rows =
      match rows with
      | [] => .error "CSV file is empty"
      | r :: rs => .ok (("Headers: " ++ joinSep " | " r) ::
          rs.mapIdx (fun i row => "Row " ++ toString (i + 1) ++ ": " ++ joinSep " | " row))) ∧
    extract_csv_content "name,age\nAnn,30" =
      .ok ["Headers: name | age", "Row 1: Ann | 30"] ∧
    extract_csv_content "" = .error "CSV file is empty" := by
  refine ⟨?_, by decide, by decide⟩
  intro rows
  cases rows with
  | nil => rfl
  | cons r rs =>
    simp only [extract_csv_rows, if_neg (List.cons_ne_nil r rs), List.enum,
      List.enumFrom_cons, List.map_cons]
    rw [enumFrom_row_blocks rs 1 Nat.one_pos]
    rfl

/-! ### Claim C4 -/

/-- C4 counterexample: under the durable (file-backed) backend, deleting the
only document of the only session does not remove the session from the
listing — `delete_file` prunes only the in-memory dict, while
`get_all_chat_sessions` reads the untouched session files, so the session
still appears, still carrying the deleted id. -/
theorem delete_keeps_durable_session_cex :
    Relation.ReflTransGen FullStep (mkInit false) c4St3 ∧
    (delete_file c4St2 "d").2 = .ok "File d deleted successfully" ∧
    ∃ s ∈ get_all_chat_sessions c4St3, s.session_id = "s1" ∧ "d" ∈ s.file_ids := by
  refine ⟨?_, by decide, by decide⟩
  exact Relation.ReflTransGen.tail (Relation.ReflTransGen.tail (Relation.ReflTransGen.tail
      Relation.ReflTransGen.refl
      (FullStep.preIndexed (mkInit false) ⟨"d", "f.txt", ["c1"], [[1]]⟩))
      (FullStep.chatStep c4St1 ⟨"q", ["d"], none, "m"⟩ "t0" "s1"
        (fun _ db => db.chunks.take 2) (some "k") (.ok "ans")))
    (FullStep.del c4St2 "d")

/-- C4 (amended): deletion prunes the deleted id from the sessions of the
in-memory session table — removing the first occurrence from each session's
`file_ids` list and deleting any session whose list becomes empty — so
under the ephemeral (read-only) backend, whose listing reads that table, a
session with duplicate-free `file_ids` never shows the deleted id and a
session grounded only in the deleted document disappears from the listing;
under the durable backend the session files are not updated, so such
sessions still appear there (see the counterexample). -/
theorem delete_prunes_memory_sessions (st : AppState) (id : String)
    (hro : st.readonly = true)
    (hnd : ∀ p ∈ st.chat_sessions, p.2.file_ids.Nodup)
    (hk : (st.chat_sessions.map Prod.fst).Nodup) :
    (∀ s ∈ get_all_chat_sessions (delete_file st id).1, id ∉ s.file_ids) ∧
    (∀ sid s, aget st.chat_sessions sid = some s →
      aget (delete_file st id).1.chat_sessions sid =
        (if id ∈ s.file_ids ∧ s.file_ids.erase id = [] then none
         else some { s with file_ids := s.file_ids.erase id })) := by
  have hst : (delete_file st id).1.chat_sessions = pruneSessions st.chat_sessions id := by
    simp [delete_file, apply_ite]
  have hsro : (delete_file st id).1.readonly = st.readonly := by
    simp [delete_file, apply_ite]
  constructor
  · intro s hs
    rw [get_all_chat_sessions, hsro, hro, if_pos rfl, hst] at hs
    obtain ⟨q, hq, hqs⟩ := List.mem_map.mp hs
    obtain ⟨p, hp, hc⟩ := mem_prune hq
    rcases hc with ⟨hmem, _, hq2⟩ | ⟨hmem, hq2⟩
    · subst hq2
      rw [← hqs]
      exact (hnd p hp).not_mem_erase
    · subst hq2
      rw [← hqs]
      exact hmem
  · intro sid s h
    rw [hst]
    exact aget_prune st.chat_sessions id sid s hk h

/-! ### Status state-machine lemmas -/

theorem Inv_init (ro : Bool) : Inv (mkInit ro) := by
  simp [Inv, mkInit]

theorem Inv_finish_shape (st st' : AppState) (id0 : String) (v : StatusInfo)
    (hInv : Inv st) (hmem : id0 ∈ st.running)
    (hsi : st'.indexing_status = aset st.indexing_status id0 v)
    (hqd : st'.queued = st.queued)
    (hrn : st'.running = st.running.erase id0) : Inv st' := by
  obtain ⟨hq, hr, hnq, hnr⟩ := hInv
  refine ⟨?_, ?_, ?_, ?_⟩
  · intro id hid
    rw [hqd] at hid
    have hne : id ≠ id0 := by
      intro hh
      subst hh
      have h1 := hq id hid
      have h2 := hr id hmem
      rw [h1] at h2
      simp at h2
    simp only [statusOf]
    rw [hsi, aget_aset_ne _ _ _ _ hne]
    exact hq id hid
  · intro id hid
    rw [hrn] at hid
    have hid' : id ≠ id0 ∧ id ∈ st.running := hnr.mem_erase_iff.mp hid
    simp only [statusOf]
    rw [hsi, aget_aset_ne _ _ _ _ hid'.1]
    exact hr id hid'.2
  · rw [hqd]
    exact hnq
  · rw [hrn]
    exact hnr.erase id0

theorem Inv_step {st st' : AppState} (hInv : Inv st) (h : PipelineStep st st') :
    Inv st' := by
  obtain ⟨hq, hr, hnq, hnr⟩ := hInv
  cases h with
  | upload fn content fresh hfresh hqf hrf =>
    by_cases hs : is_supported_file fn = false
    · simpa only [upload_file, if_pos hs] using ⟨hq, hr, hnq, hnr⟩
    · by_cases hbig : content.length > 10 * 1024 * 1024
      · simpa only [upload_file, if_neg hs, if_pos hbig] using ⟨hq, hr, hnq, hnr⟩
      · by_cases hro : st.readonly
        · simpa only [upload_file, if_neg hs, if_neg hbig, if_pos hro] using
            ⟨hq, hr, hnq, hnr⟩
        · simp only [upload_file, if_neg hs, if_neg hbig, if_neg hro]
          refine ⟨?_, ?_, List.nodup_cons.mpr ⟨hqf, hnq⟩, hnr⟩
          · intro id hid
            rcases List.mem_cons.mp hid with rfl | hid'
            · simp [statusOf, aget_aset_self]
            · have hne : id ≠ fresh := fun hh => hqf (hh ▸ hid')
              simpa [statusOf, aget_aset_ne _ _ _ _ hne] using hq id hid'
          · intro id hid
            have hne : id ≠ fresh := by
              intro hh
              subst hh
              have h2 := hr id hid
              simp [statusOf, hfresh] at h2
            simpa [statusOf, aget_aset_ne _ _ _ _ hne] using hr id hid
  | start id0 hmem =>
    refine ⟨?_, ?_, hnq.erase id0, ?_⟩
    · intro id hid
      have hid' : id ≠ id0 ∧ id ∈ st.queued := hnq.mem_erase_iff.mp hid
      simpa [index_begin, statusOf, aget_aset_ne _ _ _ _ hid'.1] using hq id hid'.2
    · intro id hid
      rcases List.mem_cons.mp hid with rfl | hid'
      · simp [index_begin, statusOf, aget_aset_self]
      · have hne : id ≠ id0 := by
          intro hh
          subst hh
          have h1 := hq id hmem
          have h2 := hr id hid'
          rw [h1] at h2
          simp at h2
        simpa [index_begin, statusOf, aget_aset_ne _ _ _ _ hne] using hr id hid'
    · refine List.nodup_cons.mpr ⟨?_, hnr⟩
      intro hmem2
      have h1 := hq id0 hmem
      have h2 := hr id0 hmem2
      rw [h1] at h2
      simp at h2
  | finish id0 outcome metaOk hmem =>
    cases outcome with
    | error e =>
      exact Inv_finish_shape st _ id0 _ ⟨hq, hr, hnq, hnr⟩ hmem rfl rfl rfl
    | ok chunks =>
      by_cases hmo : st.readonly ∨ metaOk = true
      · simp only [index_finish, if_pos hmo]
        exact Inv_finish_shape st _ id0 _ ⟨hq, hr, hnq, hnr⟩ hmem rfl rfl rfl
      · simp only [index_finish, if_neg hmo]
        exact Inv_finish_shape st _ id0 _ ⟨hq, hr, hnq, hnr⟩ hmem rfl rfl rfl

theorem rank_finish_shape (st st' : AppState) (id0 : String) (v : StatusInfo)
    (hInv : Inv st) (hmem : id0 ∈ st.running)
    (hsi : st'.indexing_status = aset st.indexing_status id0 v)
    (hv : statusRank (some v.status) = 3) (id : String) :
    statusRank (statusOf st id) ≤ statusRank (statusOf st' id) ∧
      (IsTerminal (statusOf st id) → statusOf st' id = statusOf st id) := by
  obtain ⟨hq, hr, _, _⟩ := hInv
  by_cases hid : id = id0
  · subst hid
    have hold : statusOf st id = some "indexing" := hr id hmem
    constructor
    · rw [hold]
      have hnew : statusOf st' id = some v.status := by
        simp only [statusOf]
        rw [hsi, aget_aset_self]
        rfl
      rw [hnew, hv]
      decide
    · intro hterm
      rw [hold] at hterm
      rcases hterm with h1 | h1 <;> simp at h1
  · simp only [statusOf]
    rw [hsi, aget_aset_ne _ _ _ _ hid]
    exact ⟨le_refl _, fun _ => rfl⟩

theorem rank_step {st st' : AppState} (hInv : Inv st) (h : PipelineStep st st')
    (id : String) :
    statusRank (statusOf st id) ≤ statusRank (statusOf st' id) ∧
      (IsTerminal (statusOf st id) → statusOf st' id = statusOf st id) := by
  obtain ⟨hq, hr, hnq, hnr⟩ := hInv
  cases h with
  | upload fn content fresh hfresh hqf hrf =>
    by_cases hs : is_supported_file fn = false
    · simp [upload_file, hs]
    · by_cases hbig : content.length > 10 * 1024 * 1024
      · simp [upload_file, hs, hbig]
      · by_cases hro : st.readonly
        · simp [upload_file, hs, hbig, hro]
        · simp only [upload_file, if_neg hs, if_neg hbig, if_neg hro]
          by_cases hid : id = fresh
          · subst hid
            have hold : statusOf st id = none := by
              simp [statusOf, hfresh]
            constructor
            · rw [hold]
              exact Nat.zero_le _
            · intro hterm
              rw [hold] at hterm
              rcases hterm with h1 | h1 <;> simp at h1
          · simp [statusOf, aget_aset_ne _ _ _ _ hid]
  | start id0 hmem =>
    by_cases hid : id = id0
    · subst hid
      have hold : statusOf st id = some "pending" := hq id hmem
      constructor
      · rw [hold]
        have hnew : statusOf (index_begin st id) id = some "indexing" := by
          simp [index_begin, statusOf, aget_aset_self]
        rw [hnew]
        decide
      · intro hterm
        rw [hold] at hterm
        rcases hterm with h1 | h1 <;> simp at h1
    · simp [index_begin, statusOf, aget_aset_ne _ _ _ _ hid]
  | finish id0 outcome metaOk hmem =>
    cases outcome with
    | error e =>
      refine rank_finish_shape st _ id0 _ ⟨hq, hr, hnq, hnr⟩ hmem rfl ?_ id
      rfl
    | ok chunks =>
      by_cases hmo : st.readonly ∨ metaOk = true
      · simp only [index_finish, if_pos hmo]
        refine rank_finish_shape st _ id0 _ ⟨hq, hr, hnq, hnr⟩ hmem rfl ?_ id
        rfl
      · simp only [index_finish, if_neg hmo]
        refine rank_finish_shape st _ id0 _ ⟨hq, hr, hnq, hnr⟩ hmem rfl ?_ id
        rfl

theorem Inv_reach {ro : Bool} {st : AppState}
    (h : Relation.ReflTransGen PipelineStep (mkInit ro) st) : Inv st := by
  induction h with
  | refl => exact Inv_init ro
  | tail _ hstep ih => exact Inv_step ih hstep

/-! ### Claim C1 -/

/-- C1 counterexample: the claim fails as stated — after the pre-indexed
file endpoint records the terminal status `failed` for id `d`, a second
call to the same endpoint for the same id (no re-upload, no new id)
overwrites it with `completed`, in an execution reachable from startup. -/
theorem terminal_status_overwritten_cex :
    Relation.ReflTransGen FullStep (mkInit true) c1St1 ∧
    FullStep c1St1 c1St2 ∧
    statusOf c1St1 "d" = some "failed" ∧
    IsTerminal (statusOf c1St1 "d") ∧
    statusOf c1St2 "d" = some "completed" ∧
    statusOf c1St2 "d" ≠ statusOf c1St1 "d" := by
  refine ⟨?_, ?_, by decide, Or.inr (by decide), by decide, by decide⟩
  · exact Relation.ReflTransGen.tail Relation.ReflTransGen.refl
      (FullStep.preIndexed (mkInit true) ⟨"d", "f.txt", [], []⟩)
  · exact FullStep.preIndexed c1St1 ⟨"d", "f.txt", ["c"], [[1]]⟩

/-- C1 (amended): for every document id, the status writes performed by
upload acceptance and the background indexing pipeline itself only ever
advance the status along no-record → `pending` → `indexing` →
{`completed` | `failed`} (never decreasing the rank), and once a terminal
state is recorded no pipeline operation changes it; however the pre-indexed
file endpoint may overwrite any recorded status — including a terminal one —
for an arbitrary caller-supplied id, and deletion removes the record
entirely (see the counterexample). -/
theorem pipeline_status_monotone (ro : Bool) (st st' : AppState) (id : String)
    (hreach : Relation.ReflTransGen PipelineStep (mkInit ro) st)
    (hstep : PipelineStep st st') :
    statusRank (statusOf st id) ≤ statusRank (statusOf st' id) ∧
      (IsTerminal (statusOf st id) → statusOf st' id = statusOf st id) :=
  rank_step (Inv_reach hreach) hstep id

/-- Witness for C1 (amended): one concrete upload step from the initial
state advances id `f1` from no record to `pending`. -/
theorem pipeline_status_monotone_w :
    statusRank (statusOf (mkInit false) "f1") ≤
        statusRank (statusOf ((upload_file (mkInit false) "a.txt" [104] "f1").1) "f1") ∧
      (IsTerminal (statusOf (mkInit false) "f1") →
        statusOf ((upload_file (mkInit false) "a.txt" [104] "f1").1) "f1" =
          statusOf (mkInit false) "f1") :=
  pipeline_status_monotone false (mkInit false) _ "f1" Relation.ReflTransGen.refl
    (PipelineStep.upload (mkInit false) "a.txt" [104] "f1" rfl
      (by simp [mkInit]) (by simp [mkInit]))

/-! ### Claim C2 -/

/-- C2 counterexample: the claim fails as stated — in a reachable state the
recorded indexing status of document `d` is `failed` (not `completed`), yet
a chat query referencing `d` does not fail and returns a grounding context:
the readiness check tests membership in the vector-database map, and a
stale entry for `d` survives the failed re-submission that flipped the
status. -/
theorem context_returned_despite_failed_cex :
    Relation.ReflTransGen FullStep (mkInit true) c2St2 ∧
    statusOf c2St2 "d" = some "failed" ∧
    statusOf c2St2 "d" ≠ some "completed" ∧
    (chat_with_file c2St2 ⟨"hi", ["d"], none, "m"⟩ "t0" "s1"
        (fun _ db => db.chunks.take 2) (some "k") (.ok "ans")).2 =
      .ok ⟨"hello", "ans"⟩ := by
  refine ⟨?_, by decide, by decide, by decide⟩
  exact Relation.ReflTransGen.tail (Relation.ReflTransGen.tail Relation.ReflTransGen.refl
    (FullStep.preIndexed (mkInit true) ⟨"d", "f.txt", ["hello"], [[1]]⟩))
    (FullStep.preIndexed c2St1 ⟨"d", "f.txt", [], []⟩)

/-- C2 (amended): the readiness precondition actually enforced is membership
in the in-memory vector-database map, not `completed` status: whenever some
referenced id has no vector-database entry, the chat query fails with an
HTTP 400 error whose detail names each offending id with its recorded
status (`failed` ones with their failure message), the state is unchanged,
and no context is returned; contrapositively, a context is returned only
when every referenced id has a vector-database entry.  In pipeline-only
executions the entry is created exactly when the status becomes
`completed`, but the pre-indexed-file endpoint can leave a stale entry
whose status is not `completed` (see the counterexample). -/
theorem chat_readiness_check (st : AppState) (req : FileChatRequest)
    (now fresh : String) (search : String → VDBEntry → List String)
    (apiKey : Option String) (gen : Except String String)
    (h : ¬ ∀ id ∈ req.file_ids, (aget st.vector_databases id).isSome = true) :
    chat_with_file st req now fresh search apiKey gen =
      (st, .error ⟨400, chatReadinessDetail st req.file_ids⟩) := by
  have hne : req.file_ids ≠ [] := by
    intro h0
    apply h
    rw [h0]
    intro id hid
    simp at hid
  have hlist : ¬ (chatMissingList st req.file_ids = [] ∧
      chatFailedList st req.file_ids = []) :=
    fun hc => h ((chatLists_nil_iff st req.file_ids).mp hc)
  have hcond : chatMissingList st req.file_ids ≠ [] ∨
      chatFailedList st req.file_ids ≠ [] := by
    by_contra hcc
    push_neg at hcc
    exact hlist ⟨hcc.1, hcc.2⟩
  rw [chat_with_file, if_neg hne, if_pos hcond]

/-- Witness for C2 (amended): a query for an id with no vector-database
entry fails with the readiness error and leaves the state unchanged. -/
theorem chat_readiness_check_w :
    chat_with_file (mkInit true) ⟨"q", ["d"], none, "m"⟩ "t0" "s1"
        (fun _ _ => []) none (.ok "") =
      (mkInit true, .error ⟨400, chatReadinessDetail (mkInit true) ["d"]⟩) :=
  chat_readiness_check (mkInit true) ⟨"q", ["d"], none, "m"⟩ "t0" "s1"
    (fun _ _ => []) none (.ok "") (by decide)

/-- Witness for C4 (amended) at a concrete read-only state with one session
grounded only in document `d`. -/
theorem delete_prunes_memory_sessions_w :
    (∀ s ∈ get_all_chat_sessions (delete_file c4WSt "d").1, "d" ∉ s.file_ids) ∧
    (∀ sid s, aget c4WSt.chat_sessions sid = some s →
      aget (delete_file c4WSt "d").1.chat_sessions sid =
        (if "d" ∈ s.file_ids ∧ s.file_ids.erase "d" = [] then none
         else some { s with file_ids := s.file_ids.erase "d" })) :=
  delete_prunes_memory_sessions c4WSt "d" rfl (by decide) (by decide)

/-! ### Chat success-path lemmas -/

theorem aerase_idem {α : Type} (d : List (String × α)) (k : String) :
    aerase (aerase d k) k = aerase d k := by
  induction d with
  | nil => rfl
  | cons p rest ih =>
    by_cases hp : p.1 = k
    · simp [aerase, hp, ih]
    · simp [aerase, hp, ih]

theorem aset_aset {α : Type} (d : List (String × α)) (k : String) (v1 v2 : α) :
    aset (aset d k v1) k v2 = aset d k v2 := by
  simp [aset, aerase, aerase_idem]

theorem chat_ok_spec (st : AppState) (req : FileChatRequest) (now fresh : String)
    (search : String → VDBEntry → List String) (apiKey : Option String)
    (gen : Except String String) (st' : AppState) (out : ChatOut)
    (h : chat_with_file st req now fresh search apiKey gen = (st', .ok out)) :
    ∃ base s2 : ChatSession,
      base = (aget st.chat_sessions (req.session_id.getD fresh)).getD
        (newSession (req.session_id.getD fresh) now req.file_ids) ∧
      s2 = { base with messages := base.messages ++
        [⟨"user", req.user_message, now⟩, ⟨"assistant", genText gen, now⟩] } ∧
      st' = save_chat_session
        { st with chat_sessions := aset st.chat_sessions (req.session_id.getD fresh) s2 } s2 ∧
      out = ⟨joinSep "\n\n" ((req.file_ids.map (fun id =>
          search req.user_message ((aget st.vector_databases id).getD ⟨[]⟩))).flatten),
        genText gen⟩ := by
  by_cases h1 : req.file_ids = []
  · rw [chat_with_file, if_pos h1] at h
    simp at h
  by_cases h2 : chatMissingList st req.file_ids ≠ [] ∨ chatFailedList st req.file_ids ≠ []
  · rw [chat_with_file, if_neg h1, if_pos h2] at h
    simp at h
  rw [chat_with_file, if_neg h1, if_neg h2] at h
  simp only [] at h
  by_cases hses : aget st.chat_sessions (req.session_id.getD fresh) = none
  · rw [if_pos hses] at h
    dsimp only at h
    simp only [aget_aset_self, Option.getD_some] at h
    split at h
    · simp at h
    · cases apiKey with
      | none => simp at h
      | some k =>
        cases gen with
        | ok c =>
          dsimp only at h
          rw [aset_aset, aset_aset] at h
          rw [Prod.mk.injEq] at h
          obtain ⟨hst', hout⟩ := h
          subst hst'
          injection hout with h3
          subst h3
          refine ⟨_, _, rfl, rfl, ?_, rfl⟩
          simp only [hses, Option.getD_none, newSession, genText, List.append_assoc,
            List.cons_append, List.nil_append]
        | error e =>
          dsimp only at h
          rw [aset_aset, aset_aset] at h
          rw [Prod.mk.injEq] at h
          obtain ⟨hst', hout⟩ := h
          subst hst'
          injection hout with h3
          subst h3
          refine ⟨_, _, rfl, rfl, ?_, rfl⟩
          simp only [hses, Option.getD_none, newSession, genText, List.append_assoc,
            List.cons_append, List.nil_append]
  · rw [if_neg hses] at h
    split at h
    · simp at h
    · cases apiKey with
      | none => simp at h
      | some k =>
        cases gen with
        | ok c =>
          dsimp only at h
          rw [aset_aset] at h
          rw [Prod.mk.injEq] at h
          obtain ⟨hst', hout⟩ := h
          subst hst'
          injection hout with h3
          subst h3
          refine ⟨_, _, rfl, rfl, ?_, rfl⟩
          simp only [genText, List.append_assoc, List.cons_append, List.nil_append]
        | error e =>
          dsimp only at h
          rw [aset_aset] at h
          rw [Prod.mk.injEq] at h
          obtain ⟨hst', hout⟩ := h
          subst hst'
          injection hout with h3
          subst h3
          refine ⟨_, _, rfl, rfl, ?_, rfl⟩
          simp only [genText, List.append_assoc, List.cons_append, List.nil_append]

/-! ### Claim C3 -/

/-- C3: for every chat turn that reaches the generation stage, the user
message is appended to the session before the generation call, and exactly
one assistant message — the full accumulated response on success, or the
error placeholder `"Error: ..."` on generation failure — is appended after
the call completes or fails, with the session then persisted (to the
in-memory table, and to the session file under the durable backend): the
persisted transcript is exactly the previous messages followed by the user
message and that single assistant message, so a generation-service error is
recorded as an assistant-role message, never dropped. -/
theorem chat_transcript_turn (st : AppState) (req : FileChatRequest) (now fresh : String)
    (search : String → VDBEntry → List String) (apiKey : Option String)
    (gen : Except String String) (st' : AppState) (out : ChatOut)
    (hwf : ∀ p ∈ st.chat_sessions, p.2.session_id = p.1)
    (h : chat_with_file st req now fresh search apiKey gen = (st', .ok out)) :
    ∃ base : ChatSession,
      base = (aget st.chat_sessions (req.session_id.getD fresh)).getD
        (newSession (req.session_id.getD fresh) now req.file_ids) ∧
      aget st'.chat_sessions (req.session_id.getD fresh) =
        some { base with messages := base.messages ++
          [⟨"user", req.user_message, now⟩, ⟨"assistant", genText gen, now⟩] } ∧
      out.streamed = genText gen ∧
      (st.readonly = false → aget st'.session_files (req.session_id.getD fresh) =
        some { base with messages := base.messages ++
          [⟨"user", req.user_message, now⟩, ⟨"assistant", genText gen, now⟩] }) := by
  obtain ⟨base, s2, hbase, hs2, hst', hout⟩ :=
    chat_ok_spec st req now fresh search apiKey gen st' out h
  have hbid : base.session_id = req.session_id.getD fresh := by
    cases hcase : aget st.chat_sessions (req.session_id.getD fresh) with
    | none =>
      rw [hbase, hcase]
      rfl
    | some s =>
      rw [hbase, hcase, Option.getD_some]
      exact hwf (req.session_id.getD fresh, s) (mem_of_aget hcase)
  have hs2id : s2.session_id = req.session_id.getD fresh := by
    rw [hs2]
    exact hbid
  subst hst'
  refine ⟨base, hbase, ?_, ?_, ?_⟩
  · rw [← hs2]
    by_cases hro : st.readonly = true
    · simp only [save_chat_session, hro, if_true]
      rw [hs2id, aset_aset, aget_aset_self]
    · simp only [save_chat_session, hro, if_false, Bool.false_eq_true]
      rw [aget_aset_self]
  · rw [hout]
  · intro hro
    rw [← hs2]
    simp only [save_chat_session, hro, if_false, Bool.false_eq_true]
    rw [hs2id, aget_aset_self]

/-- Witness for C3: a concrete chat turn against a pre-indexed document,
with a fresh session and a successful generation. -/
theorem chat_transcript_turn_w :
    ∃ base : ChatSession,
      base = (aget c3WSt.chat_sessions "s1").getD (newSession "s1" "t0" ["e"]) ∧
      aget (chat_with_file c3WSt ⟨"q", ["e"], none, "m"⟩ "t0" "s1"
          (fun _ db => db.chunks.take 2) (some "k")
          (.ok "ans")).1.chat_sessions "s1" =
        some { base with messages := base.messages ++
          [⟨"user", "q", "t0"⟩, ⟨"assistant", genText (.ok "ans"), "t0"⟩] } ∧
      (⟨"w1", "ans"⟩ : ChatOut).streamed = genText (.ok "ans") ∧
      (c3WSt.readonly = false →
        aget (chat_with_file c3WSt ⟨"q", ["e"], none, "m"⟩ "t0" "s1"
            (fun _ db => db.chunks.take 2) (some "k")
            (.ok "ans")).1.session_files "s1" =
          some { base with messages := base.messages ++
            [⟨"user", "q", "t0"⟩, ⟨"assistant", genText (.ok "ans"), "t0"⟩] }) :=
  chat_transcript_turn c3WSt ⟨"q", ["e"], none, "m"⟩ "t0" "s1"
    (fun _ db => db.chunks.take 2) (some "k") (.ok "ans")
    (chat_with_file c3WSt ⟨"q", ["e"], none, "m"⟩ "t0" "s1"
      (fun _ db => db.chunks.take 2) (some "k") (.ok "ans")).1
    ⟨"w1", "ans"⟩ (by decide) (by decide)

/-! ### Claim C10 -/

/-- C10: for every chat turn that supplies the id of a session already in
the in-memory session table and reaches the generation stage, the stored
session keeps exactly its recorded `file_ids` and `created_at` — the file
ids of the new request are used for that turn's retrieval (the returned
context is assembled from the request's ids) but never overwrite the stored
session's ids. -/
theorem chat_existing_session_frame (st : AppState) (req : FileChatRequest)
    (now fresh : String) (search : String → VDBEntry → List String)
    (apiKey : Option String) (gen : Except String String) (st' : AppState)
    (out : ChatOut) (sid : String) (s : ChatSession)
    (hsid : req.session_id = some sid)
    (hex : aget st.chat_sessions sid = some s)
    (h : chat_with_file st req now fresh search apiKey gen = (st', .ok out)) :
    ∃ s', aget st'.chat_sessions sid = some s' ∧
      s'.file_ids = s.file_ids ∧ s'.created_at = s.created_at ∧
      out.context = joinSep "\n\n" ((req.file_ids.map (fun id =>
        search req.user_message ((aget st.vector_databases id).getD ⟨[]⟩))).flatten) := by
  obtain ⟨base, s2, hbase, hs2, hst', hout⟩ :=
    chat_ok_spec st req now fresh search apiKey gen st' out h
  have hgd : req.session_id.getD fresh = sid := by
    rw [hsid]
    rfl
  rw [hgd] at hbase hst'
  rw [hex, Option.getD_some] at hbase
  subst hbase
  subst hst'
  refine ⟨s2, ?_, by rw [hs2], by rw [hs2], by rw [hout]⟩
  by_cases hro : st.readonly = true
  · simp only [save_chat_session, hro, if_true]
    by_cases hkey : s2.session_id = sid
    · rw [hkey, aset_aset, aget_aset_self]
    · rw [aget_aset_ne _ _ _ _ (fun hh => hkey hh.symm), aget_aset_self]
  · simp only [save_chat_session, hro, if_false, Bool.false_eq_true]
    rw [aget_aset_self]

/-- Witness for C10: a second chat turn supplying the id of the session
created by a first turn leaves its `file_ids` and `created_at` unchanged. -/
theorem chat_existing_session_frame_w :
    ∃ s', aget (chat_with_file c10St2 ⟨"q2", ["f"], some "sX", "m"⟩ "t1" "s9"
        (fun _ db => db.chunks.take 2) (some "k")
        (.ok "a2")).1.chat_sessions "sX" = some s' ∧
      s'.file_ids = (⟨"sX", "t0", ["f"],
        [⟨"user", "q1", "t0"⟩, ⟨"assistant", "a1", "t0"⟩]⟩ : ChatSession).file_ids ∧
      s'.created_at = (⟨"sX", "t0", ["f"],
        [⟨"user", "q1", "t0"⟩, ⟨"assistant", "a1", "t0"⟩]⟩ : ChatSession).created_at ∧
      (⟨"x1", "a2"⟩ : ChatOut).context = joinSep "\n\n" (((["f"] : List String).map
        (fun id => ((aget c10St2.vector_databases id).getD ⟨[]⟩).chunks.take 2)).flatten) :=
  chat_existing_session_frame c10St2 ⟨"q2", ["f"], some "sX", "m"⟩ "t1" "s9"
    (fun _ db => db.chunks.take 2) (some "k") (.ok "a2")
    (chat_with_file c10St2 ⟨"q2", ["f"], some "sX", "m"⟩ "t1" "s9"
      (fun _ db => db.chunks.take 2) (some "k") (.ok "a2")).1
    ⟨"x1", "a2"⟩ "sX"
    ⟨"sX", "t0", ["f"], [⟨"user", "q1", "t0"⟩, ⟨"assistant", "a1", "t0"⟩]⟩
    rfl (by decide) (by decide)

/-! ### Claim C7 -/

theorem splitText_2500 (text : List Char) (h : text.length = 2500) :
    splitText 1000 200 text =
      [text.take 1000, (text.drop 800).take 1000,
       (text.drop 1600).take 1000, (text.drop 2400).take 1000] := by
  rw [splitText]
  simp only [h]
  norm_num
  rw [(by decide : List.range 4 = [0, 1, 2, 3])]
  norm_num

/-- C7 counterexample: the claim fails as stated — on a 2500-character text
the chunker with defaults (window size 1000, a new window every
1000 − 200 = 800 characters) produces 4 chunks of lengths
1000 / 1000 / 900 / 100, not 3 chunks of lengths 1000 / 1000 / 500. -/
theorem chunker_2500_cex :
    ((splitText 1000 200 (List.replicate 2500 'a')).map List.length) =
      [1000, 1000, 900, 100] ∧
    (splitText 1000 200 (List.replicate 2500 'a')).length = 4 ∧
    ¬ ((splitText 1000 200 (List.replicate 2500 'a')).map List.length) =
      [1000, 1000, 500] := by
  have h := splitText_2500 (List.replicate 2500 'a') (by simp)
  rw [h]
  refine ⟨?_, rfl, ?_⟩
  · simp [List.length_take, List.length_drop, List.length_replicate]
  · intro hc
    rw [show ((List.replicate 2500 'a').take 1000 ::
      (((List.replicate 2500 'a').drop 800).take 1000) ::
      (((List.replicate 2500 'a').drop 1600).take 1000) ::
      [((List.replicate 2500 'a').drop 2400).take 1000]).map List.length =
        [1000, 1000, 900, 100] from by
          simp [List.length_take, List.length_drop, List.length_replicate]] at hc
    simp at hc

/-- C7 (amended): for a 2500-character text the chunker with default
configuration (chunkSize 1000, overlap 200) produces exactly 4 chunks of
lengths 1000, 1000, 900 and 100; each chunk after the first starts 800
characters after the previous one, so consecutive chunks share exactly 200
characters of overlap, except the last pair, which shares the last chunk's
full 100 characters. -/
theorem chunker_2500_split (text : List Char) (h : text.length = 2500) :
    (splitText 1000 200 text).map List.length = [1000, 1000, 900, 100] ∧
    ∀ k, k + 1 < (splitText 1000 200 text).length →
      ((splitText 1000 200 text).getD (k + 1) []).take 200 =
        ((splitText 1000 200 text).getD k []).drop 800 := by
  rw [splitText_2500 text h]
  constructor
  · simp [List.length_take, List.length_drop, h]
  · intro k hk
    have hk3 : k < 3 := by
      simp only [List.length_cons, List.length_nil] at hk
      omega
    interval_cases k
    · simp [List.getD, List.take_take, List.drop_take, List.drop_drop]
    · simp [List.getD, List.take_take, List.drop_take, List.drop_drop]
    · simp [List.getD, List.take_take, List.drop_take, List.drop_drop]

/-- Witness for C7 (amended) at a concrete 2500-character text. -/
theorem chunker_2500_split_w :
    (splitText 1000 200 (List.replicate 2500 'a')).map List.length =
      [1000, 1000, 900, 100] ∧
    ∀ k, k + 1 < (splitText 1000 200 (List.replicate 2500 'a')).length →
      ((splitText 1000 200 (List.replicate 2500 'a')).getD (k + 1) []).take 200 =
        ((splitText 1000 200 (List.replicate 2500 'a')).getD k []).drop 800 :=
  chunker_2500_split (List.replicate 2500 'a') (by simp)

end RagApp
